import Mathlib

/- A shallow embedding of the Quantum-Language lexer/interpreter
   (src/include/*.h, src/src/Lexer.cpp, src/src/Value.cpp, src/src/Interpreter.cpp),
   restricted to the language fragment exercised by the properties proved below.
   C++ `double` is modelled as `ℚ`: none of the proved properties depends on
   IEEE-754 rounding, and the divisor-is-exactly-zero tests (`d == 0`) are exact
   in both representations.  C++ `std::unordered_map` is modelled as an
   association list with unique keys (first-match lookup).  Reference semantics
   of arrays is modelled by explicit state passing where a property mutates an
   array (`callArrayMethod`); elsewhere values are pure trees. -/

namespace Quantum

/- ── AST (include/AST.h), the fragment used by the claims.  Expression node
   kinds omitted here (unary, slice, member, lambdas, comprehensions, …) are
   never produced by the programs the theorems quantify over.  A function body
   is stored as the statement list of its `BlockStmt`, matching
   `fn->body->as<BlockStmt>()` at every use site in Interpreter.cpp. -/

inductive Expr where
  | numberLit (value : ℚ)
  | stringLit (value : String)
  | boolLit (value : Bool)
  | nilLit
  | identifier (name : String)
  | binary (op : String) (left right : Expr)
  | assign (op : String) (target value : Expr)
  | callE (callee : Expr) (args : List Expr)
  | indexE (object idx : Expr)
deriving Repr

inductive Stmt where
  | block (statements : List Stmt)
  | varDecl (isConst : Bool) (name : String) (initializer : Option Expr)
  | functionDecl (name : String) (params : List String) (body : List Stmt)
  | ifStmt (condition : Expr) (thenBranch : Stmt) (elseBranch : Option Stmt)
  | whileStmt (condition : Expr) (body : Stmt)
  | returnStmt (value : Option Expr)
  | breakStmt
  | continueStmt
  | raiseStmt (value : Option Expr)
  | tryStmt (body : Stmt) (handlers : List (String × String × Stmt))
      (finallyBody : Option Stmt)
  | exprStmt (e : Expr)
deriving Repr

/- ── Values (include/Value.h).  `QuantumFunction::closure` is a reference to an
   Environment; environments live in an indexed store (see below), so a closure
   is a store index.  Natives and first-class class values are outside the
   fragment. -/

structure QFunc where
  name : String
  params : List String
  body : List Stmt
  closure : Nat
deriving Repr

/-- `QuantumClass`: name, optional base, method table. -/
inductive QClass where
  | mk (name : String) (base : Option QClass) (methods : List (String × QFunc))
deriving Repr

def QClass.name : QClass → String
  | .mk n _ _ => n

def QClass.base : QClass → Option QClass
  | .mk _ b _ => b

def QClass.methods : QClass → List (String × QFunc)
  | .mk _ _ m => m

inductive QValue where
  | nil
  | bool (b : Bool)
  | num (v : ℚ)
  | str (s : String)
  | arr (elements : List QValue)
  | dict (entries : List (String × QValue))
  | func (fn : QFunc)
  | inst (klass : QClass) (fields : List (String × QValue))
deriving Repr

/-- `QuantumValue` type checks (Value.h 68-76). -/
def QValue.isNil : QValue → Bool
  | .nil => true
  | _ => false

def QValue.isBool : QValue → Bool
  | .bool _ => true
  | _ => false

def QValue.isNumber : QValue → Bool
  | .num _ => true
  | _ => false

def QValue.isString : QValue → Bool
  | .str _ => true
  | _ => false

def QValue.isArray : QValue → Bool
  | .arr _ => true
  | _ => false

def QValue.isDict : QValue → Bool
  | .dict _ => true
  | _ => false

def QValue.isInstance : QValue → Bool
  | .inst _ _ => true
  | _ => false

/-- `QuantumValue::typeName` (Value.cpp 76-91). -/
def QValue.typeName : QValue → String
  | .nil => "nil"
  | .bool _ => "bool"
  | .num _ => "number"
  | .str _ => "string"
  | .arr _ => "array"
  | .dict _ => "dict"
  | .func _ => "function"
  | .inst k _ => k.name

/-- `QuantumValue::isTruthy` (Value.cpp 9-19): nil, false, 0, "", empty array
are falsy; everything else (dicts included) is truthy. -/
def QValue.isTruthy : QValue → Bool
  | .nil => false
  | .bool b => b
  | .num v => v != 0
  | .str s => !s.isEmpty
  | .arr xs => !xs.isEmpty
  | _ => true

/-- Rendering of a number (Value.cpp 26-32): an integral value of magnitude
below 1e15 prints as `std::to_string((long long)v)`, i.e. plain decimal
digits. -/
def numToString (v : ℚ) : String :=
  if v.den = 1 ∧ |v| < (10 : ℚ) ^ 15 then toString v.num else fracRepr v
where
  /-- The non-integral branch uses `ostringstream << setprecision(10)` on the
  IEEE-754 double; that formatting is not expressible over `ℚ`, so it is
  abstracted as an exact rational rendering.  No proved property inspects the
  digits this branch produces. -/
  fracRepr (v : ℚ) : String := toString v.num ++ "/" ++ toString v.den

mutual

/-- `QuantumValue::toString` (Value.cpp 21-74).  In the instance branch the
source walks the class chain looking for `__str__`, but the loop body only
`break`s ("we can't call it here without an interpreter, so fall back"), so the
function returns the `<instance:ClassName>` tag whether or not a `__str__`
method exists; the dead chain walk is therefore not reproduced here. -/
def QValue.toString : QValue → String
  | .nil => "nil"
  | .bool b => if b then "true" else "false"
  | .num v => numToString v
  | .str s => s
  | .arr xs => "[" ++ QValue.arrItems xs ++ "]"
  | .dict entries => "\x7b" ++ QValue.dictItems entries ++ "\x7d"
  | .func fn => "<fn:" ++ fn.name ++ ">"
  | .inst k _ => "<instance:" ++ k.name ++ ">"

/-- Comma-joined array elements; a string element is re-quoted
(`if ((*v)[i].isString()) s += "\"" + … + "\""`, Value.cpp 34-42). -/
def QValue.arrItems : List QValue → String
  | [] => ""
  | [.str s] => "\"" ++ s ++ "\""
  | [x] => QValue.toString x
  | .str s :: xs => "\"" ++ s ++ "\", " ++ QValue.arrItems xs
  | x :: xs => QValue.toString x ++ ", " ++ QValue.arrItems xs

/-- Comma-joined dict entries with quoted keys; a string value is re-quoted
(Value.cpp 43-54).  `unordered_map` iteration order is unspecified in the
source; the model renders entries in list order. -/
def QValue.dictItems : List (String × QValue) → String
  | [] => ""
  | [(k, .str s)] => "\"" ++ k ++ "\": \"" ++ s ++ "\""
  | [(k, v)] => "\"" ++ k ++ "\": " ++ QValue.toString v
  | (k, .str s) :: rest =>
      "\"" ++ k ++ "\": \"" ++ s ++ "\", " ++ QValue.dictItems rest
  | (k, v) :: rest =>
      "\"" ++ k ++ "\": " ++ QValue.toString v ++ ", " ++ QValue.dictItems rest

end

/- ── Errors (include/Error.h).  `QuantumError` carries a kind tag and a
   message; the four subclasses fix the kind.  Source line numbers are not
   modelled. -/

structure QError where
  kind : String
  msg : String
deriving Repr, DecidableEq

def RuntimeError (msg : String) : QError := ⟨"RuntimeError", msg⟩

def TypeError (msg : String) : QError := ⟨"TypeError", msg⟩

def NameError (msg : String) : QError := ⟨"NameError", msg⟩

def IndexError (msg : String) : QError := ⟨"IndexError", msg⟩

/-- `unordered_map::find` over the association-list model: the value bound to
`n`, or none. -/
def mapFind {β : Type} : List (String × β) → String → Option β
  | [], _ => none
  | (k, w) :: rest, n => if n = k then some w else mapFind rest n

/-- `toNum` (Interpreter.cpp 25-30). -/
def toNum (v : QValue) (ctx : String) : Except QError ℚ :=
  match v with
  | .num d => .ok d
  | _ => .error (TypeError ("Expected number in " ++ ctx ++ ", got " ++ v.typeName))

/-- C-style `(long long)` / `(int)` cast of a double: truncation toward zero. -/
def ratTrunc (q : ℚ) : Int :=
  if q < 0 then -(⌊-q⌋) else ⌊q⌋

/-- `toInt` (Interpreter.cpp 32-35): `(long long)toNum(v, ctx)`. -/
def toInt (v : QValue) (ctx : String) : Except QError Int :=
  (toNum v ctx).map ratTrunc

/-- String repetition loop in the `*` case of `Interpreter::evalBinary`:
`for (int i = 0; i < n; i++) s += lv` — a non-positive count yields "". -/
def strRepeat (s : String) (n : Int) : String :=
  String.join (List.replicate n.toNat s)

/-- `Interpreter::evalBinary` (Interpreter.cpp 2045-2221) after both operands
have been evaluated — the same if-chain over the operator spelling, covering
the operators the claims exercise: `+ - * / // % == != < > <= >=`.  The
omitted tail branches (`**` — floating-point `std::pow`; `in`/`not in`;
bitwise) are outside the fragment, so the final fallback of the source
(`RuntimeError("Unknown operator: …")`) is reached here for them as well as
for genuinely unknown spellings.  (`and`/`or` short-circuit before operand
evaluation and are handled by `evalExpr` below.) -/
def evalBinary (op : String) (lv rv : QValue) : Except QError QValue :=
  if op = "+" then
    if lv.isString || rv.isString then
      .ok (.str (lv.toString ++ rv.toString))
    else
      match lv, rv with
      | .num a, .num b => .ok (.num (a + b))
      | .arr xs, .arr ys =>
          -- `make_shared<Array>(*lv.asArray())` then push_back of rv's
          -- elements: a fresh array, both operands untouched.
          .ok (.arr (xs ++ ys))
      | _, _ =>
          .error (TypeError ("Cannot add " ++ lv.typeName ++ " and " ++ rv.typeName))
  else if op = "-" then do
    let a ← toNum lv "-"
    let b ← toNum rv "-"
    .ok (.num (a - b))
  else if op = "*" then
    match lv, rv with
    | .num a, .num b => .ok (.num (a * b))
    | .str s, .num b => .ok (.str (strRepeat s (ratTrunc b)))
    | _, _ =>
        .error (TypeError ("Cannot multiply " ++ lv.typeName ++ " and " ++ rv.typeName))
  else if op = "/" then do
    let d ← toNum rv "/"
    if d = 0 then .error (RuntimeError "Division by zero")
    else do
      let a ← toNum lv "/"
      .ok (.num (a / d))
  else if op = "//" then do
    let d ← toNum rv "//"
    if d = 0 then .error (RuntimeError "Division by zero")
    else do
      let a ← toNum lv "//"
      .ok (.num (⌊a / d⌋ : ℤ))
  else if op = "%" then do
    let b ← toInt rv "%"
    if b = 0 then .error (RuntimeError "Modulo by zero")
    else do
      let a ← toInt lv "%"
      -- C++ `%` on long long is the truncated remainder.
      .ok (.num (Int.tmod a b : ℤ))
  else if op = "==" then
    .ok (.bool (qEq lv rv))
  else if op = "!=" then
    .ok (.bool (!qEq lv rv))
  else if op = "<" then cmpOp lv rv "<" (fun a b => a < b)
  else if op = ">" then cmpOp lv rv ">" (fun a b => a > b)
  else if op = "<=" then cmpOp lv rv "<=" (fun a b => a ≤ b)
  else if op = ">=" then cmpOp lv rv ">=" (fun a b => a ≥ b)
  else
    .error (RuntimeError ("Unknown operator: " ++ op))
where
  /-- The `==` chain (Interpreter.cpp 2122-2135): nil=nil true; differing type
  names false; numbers/bools/strings by value; everything else false. -/
  qEq (lv rv : QValue) : Bool :=
    match lv, rv with
    | .nil, .nil => true
    | _, _ =>
        if lv.typeName ≠ rv.typeName then false
        else
          match lv, rv with
          | .num a, .num b => a == b
          | .bool a, .bool b => a == b
          | .str a, .str b => a == b
          | _, _ => false
  /-- `toNumOrBool` + relational comparison (Interpreter.cpp 2153-2172):
  numbers as-is, bools coerced to 0/1, anything else a TypeError. -/
  cmpOp (lv rv : QValue) (ctx : String) (cmp : ℚ → ℚ → Prop) [DecidableRel cmp] :
      Except QError QValue := do
    let a ← toNumOrBool lv ctx
    let b ← toNumOrBool rv ctx
    .ok (.bool (decide (cmp a b)))
  toNumOrBool (v : QValue) (ctx : String) : Except QError ℚ :=
    match v with
    | .num d => .ok d
    | .bool b => .ok (if b then 1 else 0)
    | _ => .error (TypeError ("Expected number in " ++ ctx ++ ", got " ++ v.typeName))

/- ── Indexing (Interpreter::evalIndex, Interpreter.cpp 2516-2567) ─────────── -/

/-- Model of `std::stoi`: optional leading whitespace, optional sign, then at
least one decimal digit (trailing characters ignored); `none` when no digits
are found (`std::invalid_argument`). -/
def stoiOpt (s : String) : Option Int :=
  let cs := s.data.dropWhile (fun c => c.isWhitespace)
  let signAndRest : Int × List Char :=
    match cs with
    | '-' :: rest => (-1, rest)
    | '+' :: rest => (1, rest)
    | _ => (1, cs)
  let digits := signAndRest.2.takeWhile Char.isDigit
  if digits.isEmpty then none
  else
    some (signAndRest.1 *
      (digits.foldl (fun acc c => acc * 10 + (c.toNat - '0'.toNat)) 0 : Nat))

/-- `Interpreter::evalIndex` after object and index are evaluated.  Arrays
accept a number or a numeric string as index; a negative index is shifted by
the length once; out of range raises IndexError.  Dict lookup stringifies the
key and yields nil on a miss.  Strings index to a one-character string;
`std::string` positions are bytes, modelled as the character list of a Lean
string (they agree on the ASCII programs treated here).
`int i += size()` mixes `int` and `size_t` in the source; for array sizes
below 2^31 the value that reaches the range test equals `i + size` computed
in `ℤ`, which is what is written here. -/
def evalIndex (obj idx : QValue) : Except QError QValue :=
  match obj with
  | .arr elements => do
      let i ← (match idx with
        | .num n => Except.ok (ratTrunc n)
        | .str s =>
            match stoiOpt s with
            | some i => Except.ok i
            | none =>
                Except.error (TypeError ("Expected number in index, got " ++ idx.typeName))
        | _ => Except.error (TypeError ("Expected number in index, got " ++ idx.typeName)))
      let i := if i < 0 then i + elements.length else i
      if i < 0 ∨ (elements.length : Int) ≤ i then
        Except.error (IndexError ("Array index " ++ ToString.toString i ++ " out of range"))
      else Except.ok (elements.getD i.toNat .nil)
  | .dict entries =>
      match mapFind entries idx.toString with
      | some v => .ok v
      | none => .ok .nil
  | .str s => do
      let n ← toNum idx "index"
      let i := ratTrunc n
      let i := if i < 0 then i + s.data.length else i
      if i < 0 ∨ (s.data.length : Int) ≤ i then
        Except.error (IndexError "String index out of range")
      else Except.ok (.str (String.mk [s.data.getD i.toNat ' ']))
  | _ => .error (TypeError ("Cannot index " ++ obj.typeName))

/- ── Array methods (Interpreter::callArrayMethod, Interpreter.cpp 2784-2811).
   The backing array is `shared_ptr`-mutable in the source; here it is passed
   and returned explicitly. -/

/-- The `push`/`append` branch: push_back every argument, return nil. -/
def arrayPush (arr : List QValue) (args : List QValue) : List QValue × QValue :=
  (arr ++ args, .nil)

/-- The `pop` branch: error on an empty array; `pop(i)` removes at (possibly
negative) index i when the first argument is a number; bare `pop()` removes and
returns the last element. -/
def arrayPop (arr : List QValue) (args : List QValue) :
    Except QError (List QValue × QValue) :=
  match arr with
  | [] => .error (IndexError "pop() on empty array")
  | x :: xs =>
      match args with
      | .num n :: _ =>
          let i := ratTrunc n
          let i := if i < 0 then i + (x :: xs).length else i
          if i < 0 ∨ ((x :: xs).length : Int) ≤ i then
            .error (IndexError "pop() index out of range")
          else
            .ok ((x :: xs).take i.toNat ++ (x :: xs).drop (i.toNat + 1),
                 (x :: xs).getD i.toNat .nil)
      | _ => .ok ((x :: xs).dropLast, (x :: xs).getLast (by simp))

/- ── Lexer fragment: the '/' dispatch (Lexer.cpp 536-566) ─────────────────── -/

/-- The token kinds referenced by the '/' dispatch decision, plus enough
neighbours to write programs' token streams (include/Token.h). -/
inductive TokenType where
  | NUMBER
  | STRING
  | BOOL_TRUE
  | BOOL_FALSE
  | NIL
  | IDENTIFIER
  | RPAREN
  | RBRACKET
  | LPAREN
  | LBRACKET
  | PLUS
  | MINUS
  | STAR
  | SLASH
  | FLOOR_DIV
  | SLASH_ASSIGN
  | NEWLINE
deriving Repr, DecidableEq

structure Token where
  type : TokenType
  value : String
  line : Nat
  col : Nat
deriving Repr, DecidableEq

/-- `Lexer::skipComment` (Lexer.cpp 107-111): advance to the next newline (or
end of input) without emitting anything. -/
def skipComment (cs : List Char) : List Char :=
  cs.dropWhile (· ≠ '\n')

/-- `Lexer::skipBlockComment` (Lexer.cpp 113-126): drop everything up to and
including the closing `*/`; at end of input just stop. -/
def skipBlockComment : List Char → List Char
  | [] => []
  | '*' :: '/' :: rest => rest
  | _ :: rest => skipBlockComment rest

/-- The `prevIsValue` test of the '/' case (Lexer.cpp 545-557): true exactly
when the token stream is nonempty and its last emitted token is
value-producing. -/
def prevIsValue (rawTokens : List Token) : Bool :=
  match rawTokens.getLast? with
  | none => false
  | some t =>
      t.type = .NUMBER || t.type = .STRING || t.type = .BOOL_TRUE ||
      t.type = .BOOL_FALSE || t.type = .NIL || t.type = .IDENTIFIER ||
      t.type = .RPAREN || t.type = .RBRACKET

/-- `case '/':` of `Lexer::tokenize` (Lexer.cpp 536-566).  `rest` is the input
after the already-consumed first '/'; the returned pair is the token stream
after the case and the remaining input.  `//` emits FLOOR_DIV only when
`prevIsValue`; otherwise the comment skip starts at the second '/', which is
consumed along with the rest of the line.  `/*` starts a block comment, `/=`
emits SLASH_ASSIGN, a lone '/' emits SLASH. -/
def slashCase (rawTokens : List Token) (line col : Nat) (rest : List Char) :
    List Token × List Char :=
  match rest with
  | '/' :: rest2 =>
      if prevIsValue rawTokens then
        (rawTokens ++ [⟨.FLOOR_DIV, "//", line, col⟩], rest2)
      else
        (rawTokens, skipComment ('/' :: rest2))
  | '*' :: rest2 => (rawTokens, skipBlockComment rest2)
  | '=' :: rest2 => (rawTokens ++ [⟨.SLASH_ASSIGN, "/=", line, col⟩], rest2)
  | _ => (rawTokens ++ [⟨.SLASH, "/", line, col⟩], rest)

/- ── Raise and handler matching (Interpreter.cpp 1175-1226) ──────────────── -/

/-- The `RaiseStmt` case of `Interpreter::execute` (Interpreter.cpp 1175-1182):
the raised error is always a `RuntimeError` — kind "RuntimeError" — whose
message is the stringified value of the raised expression (or "Exception
raised" for a bare `raise`). -/
def raiseError (v : Option QValue) : QError :=
  match v with
  | some val => RuntimeError val.toString
  | none => RuntimeError "Exception raised"

/-- The handler-matching test of the `TryStmt` case (Interpreter.cpp
1195-1198): a handler matches when it is bare (empty type), when its declared
type equals the error's kind, or when it declares `Exception` or `Error`. -/
def handlerMatches (errorType : String) (e : QError) : Bool :=
  errorType = "" || errorType = e.kind || errorType = "Exception" ||
  errorType = "Error"

/- ── Environment (Value.h 95-109, Value.cpp 95-125).  `Environment` objects
   are `shared_ptr`-allocated with a parent pointer; here they live in an
   append-only store indexed by allocation order, and the parent is a store
   index.  The chain-walking members take explicit fuel; every chain a program
   can build is acyclic (a parent always has a smaller index), so fuel
   `st.scopes.length` — what the call sites below pass — always suffices. -/

structure Scope where
  vars : List (String × QValue)
  consts : List String
  parent : Option Nat
deriving Repr

structure InterpState where
  scopes : List Scope
deriving Repr

def emptyScope : Scope := ⟨[], [], none⟩

def getScope (st : InterpState) (r : Nat) : Scope :=
  st.scopes.getD r emptyScope

/-- `unordered_map` assignment `vars[name] = val`: replace the existing
binding or add a new one. -/
def setVarIn : List (String × QValue) → String → QValue → List (String × QValue)
  | [], name, v => [(name, v)]
  | (n, w) :: rest, name, v =>
      if n = name then (name, v) :: rest else (n, w) :: setVarIn rest name v

/-- `Environment::define` (Value.cpp 97-100): bind in this scope; record the
const flag when requested (an existing flag is never cleared). -/
def envDefine (st : InterpState) (r : Nat) (name : String) (v : QValue)
    (isConst : Bool) : InterpState :=
  let sc := getScope st r
  ⟨st.scopes.set r
    { sc with
      vars := setVarIn sc.vars name v
      consts := if isConst then name :: sc.consts else sc.consts }⟩

/-- `Environment::get` (Value.cpp 102-107): local hit, else delegate to the
parent, else NameError. -/
def envGet : Nat → InterpState → Nat → String → Except QError QValue
  | 0, _, _, name => .error (NameError ("Undefined variable: '" ++ name ++ "'"))
  | fuel + 1, st, r, name =>
      let sc := getScope st r
      match mapFind sc.vars name with
      | some v => .ok v
      | none =>
          match sc.parent with
          | some p => envGet fuel st p name
          | none => .error (NameError ("Undefined variable: '" ++ name ++ "'"))

/-- `Environment::set` (Value.cpp 109-119): assign where the name is locally
bound (RuntimeError if marked const there), else delegate to the parent, else
NameError. -/
def envSet : Nat → InterpState → Nat → String → QValue → Except QError InterpState
  | 0, _, _, name, _ => .error (NameError ("Undefined variable: '" ++ name ++ "'"))
  | fuel + 1, st, r, name, v =>
      let sc := getScope st r
      match mapFind sc.vars name with
      | some _ =>
          if name ∈ sc.consts then
            .error (RuntimeError ("Cannot reassign constant '" ++ name ++ "'"))
          else .ok ⟨st.scopes.set r { sc with vars := setVarIn sc.vars name v }⟩
      | none =>
          match sc.parent with
          | some p => envSet fuel st p name v
          | none => .error (NameError ("Undefined variable: '" ++ name ++ "'"))

/-- `Environment::has` (Value.cpp 121-125). -/
def envHas : Nat → InterpState → Nat → String → Bool
  | 0, _, _, _ => false
  | fuel + 1, st, r, name =>
      let sc := getScope st r
      if (mapFind sc.vars name).isSome then true
      else
        match sc.parent with
        | some p => envHas fuel st p name
        | none => false

/-- `make_shared<Environment>(parent)`: append a fresh scope, returning the
new store and the new scope's index. -/
def allocScope (st : InterpState) (parent : Option Nat) : InterpState × Nat :=
  (⟨st.scopes ++ [{ vars := [], consts := [], parent := parent }]⟩, st.scopes.length)

/-- The parameter-binding loop of `Interpreter::callFunction` (Interpreter.cpp
2471-2476): positional binding, each missing trailing argument binds to nil,
extra arguments are ignored. -/
def bindParams (st : InterpState) (r : Nat) :
    List String → List QValue → InterpState
  | [], _ => st
  | p :: ps, [] => bindParams (envDefine st r p .nil false) r ps []
  | p :: ps, a :: rest => bindParams (envDefine st r p a false) r ps rest

/-- The `applyOp` lambda of `Interpreter::setLValue` (Interpreter.cpp
2237-2259): how a compound assignment combines the old value with the
right-hand side. -/
def applyOp (op : String) (old val : QValue) : Except QError QValue :=
  if op = "=" then .ok val
  else if op = "+=" then
    match old with
    | .str s => .ok (.str (s ++ val.toString))
    | _ => do
        let a ← toNum old op
        let b ← toNum val op
        .ok (.num (a + b))
  else if op = "-=" then do
    let a ← toNum old op
    let b ← toNum val op
    .ok (.num (a - b))
  else if op = "*=" then do
    let a ← toNum old op
    let b ← toNum val op
    .ok (.num (a * b))
  else if op = "/=" then do
    let d ← toNum val op
    if d = 0 then .error (RuntimeError "Div by 0")
    else do
      let a ← toNum old op
      .ok (.num (a / d))
  else .ok val

/-- The `Identifier` branch of `Interpreter::setLValue` (Interpreter.cpp
2261-2274): a plain `=` to a name that exists nowhere in the chain defines it
in the current scope, otherwise assigns through the chain; a compound operator
first reads the old value with `Environment::get` (which raises NameError for
an undefined name), applies `applyOp`, and assigns. -/
def setLValueIdent (st : InterpState) (env : Nat) (name : String) (val : QValue)
    (op : String) : Except QError InterpState :=
  if op = "=" then
    if !envHas st.scopes.length st env name then
      .ok (envDefine st env name val false)
    else envSet st.scopes.length st env name val
  else do
    let old ← envGet st.scopes.length st env name
    let newv ← applyOp op old val
    envSet st.scopes.length st env name newv

/-- The alias binding of a matched except-clause (Interpreter.cpp 1199-1203):
bind the error's message text (a plain string) to the alias, defining it when
absent. -/
def bindAlias (st : InterpState) (env : Nat) (aliasName : String) (e : QError) :
    Except QError InterpState :=
  if aliasName = "" then .ok st
  else if !envHas st.scopes.length st env aliasName then
    .ok (envDefine st env aliasName (.str e.msg) false)
  else envSet st.scopes.length st env aliasName (.str e.msg)

/- ── The tree-walking interpreter (Interpreter::execute / evaluate).  The C++
   implements the three non-local exit signals and errors as C++ exceptions;
   here they are an explicit control result, as is fuel exhaustion (`oot`),
   which has no counterpart in the source: all statements below about program
   behaviour are conditioned on the computation finishing within fuel. -/

inductive Ctl where
  | err (e : QError)
  | ret (v : QValue)
  | brk
  | cont
  | oot
deriving Repr

mutual

/-- `Interpreter::evaluate` over the embedded expression fragment
(Interpreter.cpp 1947-2040 dispatch and the evalXXX helpers). -/
def evalExpr : Nat → InterpState → Nat → Expr → InterpState × Except Ctl QValue
  | 0, st, _, _ => (st, .error .oot)
  | fuel + 1, st, env, e =>
    match e with
    | .numberLit v => (st, .ok (.num v))
    | .stringLit s => (st, .ok (.str s))
    | .boolLit b => (st, .ok (.bool b))
    | .nilLit => (st, .ok .nil)
    | .identifier name =>
        (st, (envGet st.scopes.length st env name).mapError Ctl.err)
    | .binary op l r =>
        -- short-circuit `and`/`or` (Interpreter.cpp 2047-2061)
        if op = "and" then
          match evalExpr fuel st env l with
          | (st1, .error c) => (st1, .error c)
          | (st1, .ok lv) =>
              if !lv.isTruthy then (st1, .ok lv) else evalExpr fuel st1 env r
        else if op = "or" then
          match evalExpr fuel st env l with
          | (st1, .error c) => (st1, .error c)
          | (st1, .ok lv) =>
              if lv.isTruthy then (st1, .ok lv) else evalExpr fuel st1 env r
        else
          match evalExpr fuel st env l with
          | (st1, .error c) => (st1, .error c)
          | (st1, .ok lv) =>
            match evalExpr fuel st1 env r with
            | (st2, .error c) => (st2, .error c)
            | (st2, .ok rv) => (st2, (evalBinary op lv rv).mapError Ctl.err)
    | .assign op target value =>
        -- `Interpreter::evalAssign` (non-unpack path, Interpreter.cpp
        -- 2346-2349): evaluate the value, store through setLValue, yield the
        -- value.  setLValue silently ignores target kinds other than the
        -- ones it handles; the fragment carries its Identifier branch.
        match evalExpr fuel st env value with
        | (st1, .error c) => (st1, .error c)
        | (st1, .ok v) =>
          match target with
          | .identifier name =>
              match setLValueIdent st1 env name v op with
              | .ok st2 => (st2, .ok v)
              | .error e2 => (st1, .error (.err e2))
          | _ => (st1, .ok v)
    | .callE callee args =>
        -- `Interpreter::evalCall` for a plain callee (Interpreter.cpp
        -- 2412-2468); member/super callees and class construction are
        -- outside the fragment.
        match evalExpr fuel st env callee with
        | (st1, .error c) => (st1, .error c)
        | (st1, .ok cv) =>
          match evalArgs fuel st1 env args with
          | (st2, .error c) => (st2, .error c)
          | (st2, .ok argv) =>
            match cv with
            | .func fn => callFunction fuel st2 fn argv
            | _ => (st2, .error (.err (TypeError ("Cannot call " ++ cv.typeName))))
    | .indexE obj idx =>
        match evalExpr fuel st env obj with
        | (st1, .error c) => (st1, .error c)
        | (st1, .ok ov) =>
          match evalExpr fuel st1 env idx with
          | (st2, .error c) => (st2, .error c)
          | (st2, .ok iv) => (st2, (evalIndex ov iv).mapError Ctl.err)
termination_by structural fuel _ _ _ => fuel

/-- Left-to-right evaluation of an argument list. -/
def evalArgs : Nat → InterpState → Nat → List Expr →
    InterpState × Except Ctl (List QValue)
  | 0, st, _, _ => (st, .error .oot)
  | _fuel + 1, st, _, [] => (st, .ok [])
  | fuel + 1, st, env, a :: rest =>
      match evalExpr fuel st env a with
      | (st1, .error c) => (st1, .error c)
      | (st1, .ok v) =>
        match evalArgs fuel st1 env rest with
        | (st2, .error c) => (st2, .error c)
        | (st2, .ok vs) => (st2, .ok (v :: vs))
termination_by structural fuel _ _ _ => fuel

/-- `Interpreter::callFunction` (Interpreter.cpp 2470-2487): a fresh scope
whose parent is the function's captured closure (the caller's environment does
not appear), positional parameter binding, then the body; a Return signal
supplies the result and falling off the end yields nil; every other signal and
error propagates. -/
def callFunction : Nat → InterpState → QFunc → List QValue →
    InterpState × Except Ctl QValue
  | 0, st, _, _ => (st, .error .oot)
  | fuel + 1, st, fn, args =>
      let alloc := allocScope st (some fn.closure)
      let st2 := bindParams alloc.1 alloc.2 fn.params args
      match execSeq fuel st2 alloc.2 fn.body with
      | (st3, none) => (st3, .ok .nil)
      | (st3, some (.ret v)) => (st3, .ok v)
      | (st3, some c) => (st3, .error c)
termination_by structural fuel _ _ _ => fuel

/-- `Interpreter::execute` over the embedded statement fragment
(Interpreter.cpp 1156-1231 dispatch and the execXXX helpers). -/
def execStmt : Nat → InterpState → Nat → Stmt → InterpState × Option Ctl
  | 0, st, _, _ => (st, some .oot)
  | fuel + 1, st, env, s =>
    match s with
    | .block stmts =>
        -- execBlock with no explicit scope: a fresh child of the current
        -- environment, restored on every exit path (Interpreter.cpp
        -- 1233-1248); restoration is implicit here since `env` is a
        -- parameter.
        let alloc := allocScope st (some env)
        execSeq fuel alloc.1 alloc.2 stmts
    | .varDecl isConst name init =>
        -- execVarDecl without a type hint (Interpreter.cpp 1250-1335)
        match init with
        | none => (envDefine st env name .nil isConst, none)
        | some e =>
          match evalExpr fuel st env e with
          | (st1, .ok v) => (envDefine st1 env name v isConst, none)
          | (st1, .error c) => (st1, some c)
    | .functionDecl name params body =>
        -- execFunctionDecl (Interpreter.cpp 1337-1345): capture the current
        -- environment as the closure
        (envDefine st env name (.func ⟨name, params, body, env⟩) false, none)
    | .ifStmt cond t e =>
        match evalExpr fuel st env cond with
        | (st1, .error c) => (st1, some c)
        | (st1, .ok v) =>
          if v.isTruthy then execStmt fuel st1 env t
          else
            match e with
            | some el => execStmt fuel st1 env el
            | none => (st1, none)
    | .whileStmt cond body => execWhile fuel st env cond body
    | .returnStmt value =>
        -- execReturn (Interpreter.cpp 1516-1522)
        match value with
        | none => (st, some (.ret .nil))
        | some e =>
          match evalExpr fuel st env e with
          | (st1, .ok v) => (st1, some (.ret v))
          | (st1, .error c) => (st1, some c)
    | .breakStmt => (st, some .brk)
    | .continueStmt => (st, some .cont)
    | .raiseStmt value =>
        -- the RaiseStmt case (Interpreter.cpp 1175-1182): always a
        -- RuntimeError whose message is the stringified value
        match value with
        | none => (st, some (.err (RuntimeError "Exception raised")))
        | some e =>
          match evalExpr fuel st env e with
          | (st1, .ok v) => (st1, some (.err (RuntimeError v.toString)))
          | (st1, .error c) => (st1, some c)
    | .exprStmt e =>
        match evalExpr fuel st env e with
        | (st1, .ok _) => (st1, none)
        | (st1, .error c) => (st1, some c)
    | .tryStmt body handlers finallyBody =>
        -- the TryStmt case (Interpreter.cpp 1183-1226).  Return/Break/
        -- Continue are caught before any handler can see them: finally runs,
        -- then they continue propagating (a signal or error raised by the
        -- finally body itself replaces them).  An error searches the
        -- handlers in declaration order; the first match binds the alias and
        -- runs, and the trailing runFinally is reached when the handler body
        -- completes normally.  An unhandled error runs finally and is
        -- rethrown.
        match execStmt fuel st env body with
        | (st1, none) => execFinally fuel st1 env finallyBody
        | (st1, some (.ret v)) =>
            (match execFinally fuel st1 env finallyBody with
             | (st2, none) => (st2, some (.ret v))
             | (st2, some c) => (st2, some c))
        | (st1, some .brk) =>
            (match execFinally fuel st1 env finallyBody with
             | (st2, none) => (st2, some .brk)
             | (st2, some c) => (st2, some c))
        | (st1, some .cont) =>
            (match execFinally fuel st1 env finallyBody with
             | (st2, none) => (st2, some .cont)
             | (st2, some c) => (st2, some c))
        | (st1, some .oot) => (st1, some .oot)
        | (st1, some (.err e)) =>
            match handlers.find? (fun h => handlerMatches h.1 e) with
            | some h =>
                (match bindAlias st1 env h.2.1 e with
                 | .error e2 => (st1, some (.err e2))
                 | .ok st2 =>
                   match execStmt fuel st2 env h.2.2 with
                   | (st3, none) => execFinally fuel st3 env finallyBody
                   | (st3, some c) => (st3, some c))
            | none =>
                match execFinally fuel st1 env finallyBody with
                | (st2, none) => (st2, some (.err e))
                | (st2, some c) => (st2, some c)
termination_by structural fuel _ _ _ => fuel

/-- The `runFinally` lambda of the TryStmt case (Interpreter.cpp 1184-1186):
run the finally body when there is one. -/
def execFinally : Nat → InterpState → Nat → Option Stmt → InterpState × Option Ctl
  | _, st, _, none => (st, none)
  | 0, st, _, some _ => (st, some .oot)
  | fuel + 1, st, env, some fb => execStmt fuel st env fb
termination_by structural fuel _ _ _ => fuel

/-- `Interpreter::execWhile` (Interpreter.cpp 1412-1429): re-test the
condition each iteration; Break ends the loop, Continue re-tests, Return and
errors propagate. -/
def execWhile : Nat → InterpState → Nat → Expr → Stmt → InterpState × Option Ctl
  | 0, st, _, _, _ => (st, some .oot)
  | fuel + 1, st, env, cond, body =>
      match evalExpr fuel st env cond with
      | (st1, .error c) => (st1, some c)
      | (st1, .ok v) =>
        if v.isTruthy then
          match execStmt fuel st1 env body with
          | (st2, none) => execWhile fuel st2 env cond body
          | (st2, some .brk) => (st2, none)
          | (st2, some .cont) => execWhile fuel st2 env cond body
          | (st2, some c) => (st2, some c)
        else (st1, none)
termination_by structural fuel _ _ _ _ => fuel

/-- The statement loop of `Interpreter::execBlock` (Interpreter.cpp
1239-1241): run statements in order until one exits abnormally. -/
def execSeq : Nat → InterpState → Nat → List Stmt → InterpState × Option Ctl
  | 0, st, _, _ => (st, some .oot)
  | _fuel + 1, st, _, [] => (st, none)
  | fuel + 1, st, env, s :: rest =>
      match execStmt fuel st env s with
      | (st1, none) => execSeq fuel st1 env rest
      | (st1, some c) => (st1, some c)
termination_by structural fuel _ _ _ => fuel

end

/-- `QuantumClass` method lookup walking the base chain, as written at each
use site (`while (k) { … methods.find … k = k->base.get(); }`). -/
def QClass.findMethod : QClass → String → Option QFunc
  | .mk _ base methods, name =>
      match mapFind methods name with
      | some fn => some fn
      | none =>
          match base with
          | some b => QClass.findMethod b name
          | none => none

/-- `Interpreter::callInstanceMethod` (Interpreter.cpp 2494-2515): like
callFunction but the fresh scope additionally binds `self` and `this` to the
instance, and a leading `self`/`this` parameter name is skipped before
positional binding. -/
def callInstanceMethod (fuel : Nat) (st : InterpState) (instVal : QValue)
    (fn : QFunc) (args : List QValue) : InterpState × Except Ctl QValue :=
  match fuel with
  | 0 => (st, .error .oot)
  | fuel + 1 =>
      let alloc := allocScope st (some fn.closure)
      let st2 := envDefine alloc.1 alloc.2 "self" instVal false
      let st3 := envDefine st2 alloc.2 "this" instVal false
      let paramStart : Nat :=
        match fn.params with
        | p :: _ => if p = "self" || p = "this" then 1 else 0
        | [] => 0
      let st4 := bindParams st3 alloc.2 (fn.params.drop paramStart) args
      match execSeq fuel st4 alloc.2 fn.body with
      | (st5, none) => (st5, .ok .nil)
      | (st5, some (.ret v)) => (st5, .ok v)
      | (st5, some c) => (st5, .error c)

/-- The per-argument rendering of the space-join (non-printf) path of
`Interpreter::execPrint` (Interpreter.cpp 1566-1593): an instance whose class
chain defines `__str__` prints the stringified result of calling it with no
arguments; every other value — including an instance without `__str__` —
prints its `toString`. -/
def renderPrintArg (fuel : Nat) (st : InterpState) (v : QValue) :
    InterpState × Except Ctl String :=
  match v with
  | .inst klass fields =>
      match QClass.findMethod klass "__str__" with
      | some fn =>
          (match callInstanceMethod fuel st (.inst klass fields) fn [] with
           | (st1, .ok r) => (st1, .ok r.toString)
           | (st1, .error c) => (st1, .error c))
      | none => (st, .ok (QValue.toString (.inst klass fields)))
  | _ => (st, .ok v.toString)

end Quantum

namespace Quantum

/-- The concrete class used to refute C2: a class C whose `__str__` method
returns the string "hello". -/
def strFnC2 : QFunc :=
  ⟨"__str__", ["self"], [.returnStmt (some (.stringLit "hello"))], 0⟩

def strClassC2 : QClass := .mk "C" none [("__str__", strFnC2)]

/- ── Helper lemmas ────────────────────────────────────────────────────────── -/

theorem ratTrunc_intCast (i : ℤ) : ratTrunc (i : ℚ) = i := by
  unfold ratTrunc
  rcases lt_or_ge ((i : ℚ)) 0 with h | h
  · rw [if_pos h, ← Int.cast_neg, Int.floor_intCast]
    ring
  · rw [if_neg (not_lt.mpr h), Int.floor_intCast]

theorem exceptBindOk {ε α β : Type} (a : α) (f : α → Except ε β) :
    (Except.ok a >>= f) = f a := rfl

theorem envDefine_length (st : InterpState) (r : Nat) (n : String) (v : QValue)
    (c : Bool) : (envDefine st r n v c).scopes.length = st.scopes.length := by
  unfold envDefine
  simp

theorem getScope_set (l : List Scope) (r : Nat) (sc : Scope) (hr : r < l.length) :
    getScope ⟨l.set r sc⟩ r = sc := by
  unfold getScope
  simp [List.getD_eq_getElem?_getD, List.getElem?_set_self, hr]

theorem getScope_envDefine (st : InterpState) (r : Nat) (n : String) (v : QValue)
    (c : Bool) (hr : r < st.scopes.length) :
    getScope (envDefine st r n v c) r =
      { getScope st r with
        vars := setVarIn (getScope st r).vars n v
        consts := if c then n :: (getScope st r).consts else (getScope st r).consts } := by
  unfold envDefine
  exact getScope_set _ _ _ hr

theorem mapFind_setVarIn (vars : List (String × QValue)) (n m : String) (v : QValue) :
    mapFind (setVarIn vars n v) m = if m = n then some v else mapFind vars m := by
  induction vars with
  | nil => simp [setVarIn, mapFind]
  | cons kv rest ih =>
      obtain ⟨k, w⟩ := kv
      by_cases hk : k = n
      · subst hk
        by_cases hm : m = k <;> simp [setVarIn, mapFind, hm]
      · by_cases hm : m = k <;> by_cases hm2 : m = n <;>
          simp_all [setVarIn, mapFind]

theorem bindParams_length (ps : List String) (args : List QValue) (st : InterpState)
    (r : Nat) : (bindParams st r ps args).scopes.length = st.scopes.length := by
  induction ps generalizing st args with
  | nil => rfl
  | cons p ps ih =>
      cases args with
      | nil => rw [bindParams, ih, envDefine_length]
      | cons a rest => rw [bindParams, ih, envDefine_length]

theorem bindParams_parent (ps : List String) (args : List QValue) (st : InterpState)
    (r : Nat) (hr : r < st.scopes.length) :
    (getScope (bindParams st r ps args) r).parent = (getScope st r).parent := by
  induction ps generalizing st args with
  | nil => rfl
  | cons p ps ih =>
      cases args with
      | nil =>
          rw [bindParams, ih _ _ (by rw [envDefine_length]; exact hr),
            getScope_envDefine _ _ _ _ _ hr]
      | cons a rest =>
          rw [bindParams, ih _ _ (by rw [envDefine_length]; exact hr),
            getScope_envDefine _ _ _ _ _ hr]

theorem bindParams_not_mem (ps : List String) (args : List QValue) (st : InterpState)
    (r : Nat) (p : String) (hp : p ∉ ps) (hr : r < st.scopes.length) :
    mapFind (getScope (bindParams st r ps args) r).vars p =
      mapFind (getScope st r).vars p := by
  induction ps generalizing st args with
  | nil => rfl
  | cons q ps ih =>
      have hpq : p ≠ q := fun h => hp (h ▸ List.mem_cons_self q ps)
      have hp2 : p ∉ ps := fun h => hp (List.mem_cons_of_mem q h)
      cases args with
      | nil =>
          rw [bindParams, ih _ _ hp2 (by rw [envDefine_length]; exact hr),
            getScope_envDefine _ _ _ _ _ hr]
          simp [mapFind_setVarIn, hpq]
      | cons a rest =>
          rw [bindParams, ih _ _ hp2 (by rw [envDefine_length]; exact hr),
            getScope_envDefine _ _ _ _ _ hr]
          simp [mapFind_setVarIn, hpq]

theorem bindParams_lookup (ps : List String) (args : List QValue) (st : InterpState)
    (r : Nat) (hr : r < st.scopes.length) (hnd : ps.Nodup) (i : Nat)
    (hi : i < ps.length) :
    mapFind (getScope (bindParams st r ps args) r).vars (ps.get ⟨i, hi⟩) =
      some (args.getD i .nil) := by
  induction ps generalizing st args i with
  | nil => exact absurd hi (by simp)
  | cons q ps ih =>
      have hq : q ∉ ps := (List.nodup_cons.mp hnd).1
      have hnd2 : ps.Nodup := (List.nodup_cons.mp hnd).2
      cases i with
      | zero =>
          cases args with
          | nil =>
              rw [show bindParams st r (q :: ps) [] =
                  bindParams (envDefine st r q .nil false) r ps [] from rfl]
              rw [show (q :: ps).get ⟨0, hi⟩ = q from rfl]
              rw [bindParams_not_mem _ _ _ _ _ hq
                  (by rw [envDefine_length]; exact hr),
                getScope_envDefine _ _ _ _ _ hr]
              simp [mapFind_setVarIn]
          | cons a rest =>
              rw [show bindParams st r (q :: ps) (a :: rest) =
                  bindParams (envDefine st r q a false) r ps rest from rfl]
              rw [show (q :: ps).get ⟨0, hi⟩ = q from rfl]
              rw [bindParams_not_mem _ _ _ _ _ hq
                  (by rw [envDefine_length]; exact hr),
                getScope_envDefine _ _ _ _ _ hr]
              simp [mapFind_setVarIn]
      | succ j =>
          have hj : j < ps.length := by simpa using hi
          cases args with
          | nil =>
              rw [show bindParams st r (q :: ps) [] =
                  bindParams (envDefine st r q .nil false) r ps [] from rfl]
              rw [show (q :: ps).get ⟨j + 1, hi⟩ = ps.get ⟨j, hj⟩ from rfl]
              rw [ih _ _ (by rw [envDefine_length]; exact hr) hnd2 j hj]
              simp
          | cons a rest =>
              rw [show bindParams st r (q :: ps) (a :: rest) =
                  bindParams (envDefine st r q a false) r ps rest from rfl]
              rw [show (q :: ps).get ⟨j + 1, hi⟩ = ps.get ⟨j, hj⟩ from rfl]
              rw [ih _ _ (by rw [envDefine_length]; exact hr) hnd2 j hj]
              simp

theorem envHas_false_envGet (fuel : Nat) (st : InterpState) (r : Nat) (name : String)
    (h : envHas fuel st r name = false) :
    envGet fuel st r name =
      .error (NameError ("Undefined variable: '" ++ name ++ "'")) := by
  induction fuel generalizing r with
  | zero => rfl
  | succ fuel ih =>
      rw [envGet]
      rw [envHas] at h
      cases hl : mapFind (getScope st r).vars name with
      | some v => simp [hl] at h
      | none =>
          simp only [hl]
          cases hp : (getScope st r).parent with
          | none => rfl
          | some p =>
              simp only [hp]
              exact ih p (by simpa [hl, hp] using h)

end Quantum

namespace Quantum

/- ── The claims ───────────────────────────────────────────────────────────── -/

/-- C1 (counterexample): the claim says an error raised by `raise expr`
carries the free-form string of `expr` as its kind, so that a handler
declaring that type name matches it.  On the code, raising the string
"MyError" produces an error whose kind is not "MyError", and a handler
declaring "MyError" does not match it. -/
theorem c1_raise_free_form_kind_counterexample :
    (raiseError (some (.str "MyError"))).kind ≠ "MyError" ∧
    handlerMatches "MyError" (raiseError (some (.str "MyError"))) = false ∧
    execStmt 3 ⟨[emptyScope]⟩ 0
        (.tryStmt (.raiseStmt (some (.stringLit "MyError")))
          [("MyError", "", .block [])] none) =
      (⟨[emptyScope]⟩, some (.err (RuntimeError "MyError"))) :=
  ⟨by decide, rfl, rfl⟩

/-- C1 (amended): an error raised by `raise expr` always has kind
"RuntimeError"; the stringified value of `expr` becomes the error's message,
not its kind.  A handler matches a propagating error exactly when it is bare,
or its declared type name equals the error's kind (for a raised error:
"RuntimeError"), or it declares Exception or Error; the first matching
handler in declaration order wins. -/
theorem c1_raise_kind_and_handler_matching (v : QValue) (errorType : String) :
    (raiseError (some v)).kind = "RuntimeError" ∧
    (raiseError (some v)).msg = v.toString ∧
    (handlerMatches errorType (raiseError (some v)) = true ↔
      errorType = "" ∨ errorType = "RuntimeError" ∨ errorType = "Exception" ∨
      errorType = "Error") ∧
    (∀ (pre post : List (String × String × Stmt)) (h : String × String × Stmt),
      (∀ h2 ∈ pre, handlerMatches h2.1 (raiseError (some v)) = false) →
      handlerMatches h.1 (raiseError (some v)) = true →
      (pre ++ h :: post).find?
        (fun hh => handlerMatches hh.1 (raiseError (some v))) = some h) ∧
    (∀ (fuel : Nat) (st st1 : InterpState) (env : Nat) (e : Expr),
      evalExpr fuel st env e = (st1, .ok v) →
      execStmt (fuel + 1) st env (.raiseStmt (some e)) =
        (st1, some (.err (raiseError (some v))))) := by
  refine ⟨rfl, rfl, ?_, ?_, ?_⟩
  · simp only [handlerMatches, raiseError, RuntimeError, Bool.or_eq_true,
      decide_eq_true_eq]
    tauto
  · intro pre post h hpre hm
    induction pre with
    | nil => simp [List.find?, hm]
    | cons a pre ih =>
        have ha : handlerMatches a.1 (raiseError (some v)) = false :=
          hpre a (by simp)
        simp only [List.cons_append, List.find?, ha]
        exact ih (fun h2 hmem => hpre h2 (by simp [hmem]))
  · intro fuel st st1 env e he
    simp only [execStmt, he, raiseError]

/-- C1 (witness): a raise of the string "MyError" propagates as an error of
kind "RuntimeError", and the first handler whose declaration matches such an
error ("Error" here, after a non-matching "TypeError") is the one selected. -/
theorem c1_raise_kind_and_handler_matching_witness :
    execStmt 3 ⟨[emptyScope]⟩ 0 (.raiseStmt (some (.stringLit "MyError"))) =
      (⟨[emptyScope]⟩, some (.err (raiseError (some (.str "MyError"))))) ∧
    ([("TypeError", "x", Stmt.block []), ("Error", "x", Stmt.block [])] :
        List (String × String × Stmt)).find?
      (fun hh => handlerMatches hh.1 (raiseError (some (.str "MyError")))) =
      some ("Error", "x", Stmt.block []) := by
  constructor
  · exact (c1_raise_kind_and_handler_matching (.str "MyError") "").2.2.2.2
      2 ⟨[emptyScope]⟩ ⟨[emptyScope]⟩ 0 (.stringLit "MyError") rfl
  · have h := (c1_raise_kind_and_handler_matching (.str "MyError") "").2.2.2.1
      [("TypeError", "x", Stmt.block [])] [] ("Error", "x", Stmt.block [])
      (by
        intro h2 hmem
        rw [List.mem_singleton] at hmem
        subst hmem
        rfl)
      rfl
    simpa using h

/-- C2 (counterexample): the claim says converting an instance to a string
produces the result of a `__str__` method found in the class chain whenever
one exists.  For an instance of a class whose `__str__` returns "hello",
`QuantumValue::toString` nevertheless produces the opaque tag
"<instance:C>". -/
theorem c2_instance_str_counterexample :
    QClass.findMethod strClassC2 "__str__" = some strFnC2 ∧
    (callInstanceMethod 9 ⟨[emptyScope]⟩ (.inst strClassC2 []) strFnC2 []).2 =
      .ok (.str "hello") ∧
    QValue.toString (.inst strClassC2 []) = "<instance:C>" ∧
    "<instance:C>" ≠ "hello" :=
  ⟨rfl, rfl, rfl, by decide⟩

/-- C2 (amended): `QuantumValue::toString` on an instance always produces the
opaque `<instance:ClassName>` tag, whether or not `__str__` exists.  Only the
print statement's space-join path consults the class chain for `__str__`:
when the chain defines it, the printed text is the stringified result of
calling it on the instance with no arguments; otherwise the printed text is
the opaque tag. -/
theorem c2_instance_rendering_amended (klass : QClass)
    (fields : List (String × QValue)) (fuel : Nat) (st : InterpState) :
    QValue.toString (.inst klass fields) = "<instance:" ++ klass.name ++ ">" ∧
    (∀ fn st1 r, QClass.findMethod klass "__str__" = some fn →
      callInstanceMethod fuel st (.inst klass fields) fn [] = (st1, .ok r) →
      renderPrintArg fuel st (.inst klass fields) = (st1, .ok r.toString)) ∧
    (QClass.findMethod klass "__str__" = none →
      renderPrintArg fuel st (.inst klass fields) =
        (st, .ok ("<instance:" ++ klass.name ++ ">"))) := by
  refine ⟨?_, ?_, ?_⟩
  · cases klass
    rfl
  · intro fn st1 r hfind hcall
    simp only [renderPrintArg, hfind, hcall]
  · intro hfind
    simp only [renderPrintArg]
    rw [hfind]
    cases klass
    rfl

/-- C2 (witness): printing an instance of the concrete class C renders the
result of its `__str__` method, "hello". -/
theorem c2_instance_rendering_amended_witness :
    renderPrintArg 9 ⟨[emptyScope]⟩ (.inst strClassC2 []) =
      ((callInstanceMethod 9 ⟨[emptyScope]⟩ (.inst strClassC2 []) strFnC2 []).1,
        .ok "hello") := by
  have h := (c2_instance_rendering_amended strClassC2 [] 9 ⟨[emptyScope]⟩).2.1
    strFnC2
    (callInstanceMethod 9 ⟨[emptyScope]⟩ (.inst strClassC2 []) strFnC2 []).1
    (.str "hello") rfl rfl
  simpa using h

end Quantum

namespace Quantum

/-- C3: a try statement's finally block executes on every exit path from the
try body — normal completion, a handled error (whose handler body completes),
an unhandled error, and a Return/Break/Continue signal — and
Return/Break/Continue are never caught by except handlers: the handler list
does not appear in their equations, and after the finally body runs they keep
propagating (a signal or error produced by the finally body itself takes
over).  The last two conjuncts show a propagating Break consumed by its
enclosing while loop and a propagating Return consumed by its enclosing
function call. -/
theorem c3_finally_on_every_exit_path (fuel : Nat) (st st1 : InterpState)
    (env : Nat) (body : Stmt) (handlers : List (String × String × Stmt))
    (fin : Stmt) :
    (execStmt fuel st env body = (st1, none) →
      execStmt (fuel + 1) st env (.tryStmt body handlers (some fin)) =
        execFinally fuel st1 env (some fin)) ∧
    (∀ v, execStmt fuel st env body = (st1, some (.ret v)) →
      execStmt (fuel + 1) st env (.tryStmt body handlers (some fin)) =
        (match execFinally fuel st1 env (some fin) with
         | (st2, none) => (st2, some (.ret v))
         | (st2, some c) => (st2, some c))) ∧
    (execStmt fuel st env body = (st1, some .brk) →
      execStmt (fuel + 1) st env (.tryStmt body handlers (some fin)) =
        (match execFinally fuel st1 env (some fin) with
         | (st2, none) => (st2, some .brk)
         | (st2, some c) => (st2, some c))) ∧
    (execStmt fuel st env body = (st1, some .cont) →
      execStmt (fuel + 1) st env (.tryStmt body handlers (some fin)) =
        (match execFinally fuel st1 env (some fin) with
         | (st2, none) => (st2, some .cont)
         | (st2, some c) => (st2, some c))) ∧
    (∀ e, execStmt fuel st env body = (st1, some (.err e)) →
      handlers.find? (fun h => handlerMatches h.1 e) = none →
      execStmt (fuel + 1) st env (.tryStmt body handlers (some fin)) =
        (match execFinally fuel st1 env (some fin) with
         | (st2, none) => (st2, some (.err e))
         | (st2, some c) => (st2, some c))) ∧
    (∀ e t a hbody st2 st3, execStmt fuel st env body = (st1, some (.err e)) →
      handlers.find? (fun h => handlerMatches h.1 e) = some (t, a, hbody) →
      bindAlias st1 env a e = .ok st2 →
      execStmt fuel st2 env hbody = (st3, none) →
      execStmt (fuel + 1) st env (.tryStmt body handlers (some fin)) =
        execFinally fuel st3 env (some fin)) ∧
    (∀ cond lbody stc v stb, evalExpr fuel st env cond = (stc, .ok v) →
      v.isTruthy = true → execStmt fuel stc env lbody = (stb, some .brk) →
      execWhile (fuel + 1) st env cond lbody = (stb, none)) ∧
    (∀ fn args st3 v,
      execSeq fuel (bindParams (allocScope st (some fn.closure)).1
          (allocScope st (some fn.closure)).2 fn.params args)
        (allocScope st (some fn.closure)).2 fn.body = (st3, some (.ret v)) →
      callFunction (fuel + 1) st fn args = (st3, .ok v)) := by
  refine ⟨?_, ?_, ?_, ?_, ?_, ?_, ?_, ?_⟩
  · intro h
    simp only [execStmt, h]
  · intro v h
    simp only [execStmt, h]
  · intro h
    simp only [execStmt, h]
  · intro h
    simp only [execStmt, h]
  · intro e h hfind
    simp only [execStmt, h, hfind]
  · intro e t a hbody st2 st3 h hfind hbind hexec
    simp only [execStmt, h, hfind, hbind, hexec]
  · intro cond lbody stc v stb hc hv hb
    simp only [execWhile, hc, hv, if_true, hb]
  · intro fn args st3 v hexec
    simp only [callFunction, hexec]

/-- C3 (witness): a try body that raises, a handler that does not match, and
a finally block that assigns — the final state shows the finally assignment
took effect, and the unhandled error still propagates afterwards. -/
theorem c3_finally_on_every_exit_path_witness :
    execStmt 10 ⟨[emptyScope]⟩ 0
        (.tryStmt (.raiseStmt (some (.stringLit "boom")))
          [("TypeError", "", .block [])]
          (some (.exprStmt (.assign "=" (.identifier "y") (.stringLit "done"))))) =
      (⟨[⟨[("y", .str "done")], [], none⟩]⟩,
        some (.err (RuntimeError "boom"))) := by
  exact (c3_finally_on_every_exit_path 9 ⟨[emptyScope]⟩ ⟨[emptyScope]⟩ 0
    (.raiseStmt (some (.stringLit "boom")))
    [("TypeError", "", .block [])]
    (.exprStmt (.assign "=" (.identifier "y") (.stringLit "done")))).2.2.2.2.1
    (RuntimeError "boom") rfl rfl

/-- C4: with a divisor that is exactly 0, `/`, `//` and `%` raise a
RuntimeError for every left number operand — the operation never returns a
value (in particular neither `inf` nor `NaN`). -/
theorem c4_division_by_exact_zero_raises (a : ℚ) :
    evalBinary "/" (.num a) (.num 0) = .error (RuntimeError "Division by zero") ∧
    evalBinary "//" (.num a) (.num 0) = .error (RuntimeError "Division by zero") ∧
    evalBinary "%" (.num a) (.num 0) = .error (RuntimeError "Modulo by zero") :=
  ⟨rfl, rfl, rfl⟩

/-- C5: `+` concatenates the stringified operands when either operand is a
string, adds when both are numbers, builds a new array holding the left
elements then the right elements when both are arrays (the operands
themselves do not appear in the result, so they stay unmodified), and raises
a TypeError for every other pair of operand kinds. -/
theorem c5_plus_operator_semantics :
    (∀ (s : String) (rv : QValue),
        evalBinary "+" (.str s) rv = .ok (.str (s ++ rv.toString))) ∧
    (∀ (lv : QValue) (s : String),
        evalBinary "+" lv (.str s) = .ok (.str (lv.toString ++ s))) ∧
    (∀ a b : ℚ, evalBinary "+" (.num a) (.num b) = .ok (.num (a + b))) ∧
    (∀ xs ys : List QValue,
        evalBinary "+" (.arr xs) (.arr ys) = .ok (.arr (xs ++ ys))) ∧
    (∀ lv rv : QValue,
        lv.isString = false → rv.isString = false →
        (lv.isNumber && rv.isNumber) = false →
        (lv.isArray && rv.isArray) = false →
        evalBinary "+" lv rv =
          .error (TypeError ("Cannot add " ++ lv.typeName ++ " and " ++
            rv.typeName))) := by
  refine ⟨fun s rv => rfl, fun lv s => ?_, fun a b => rfl, fun xs ys => rfl, ?_⟩
  · cases lv <;> rfl
  · intro lv rv h1 h2 h3 h4
    cases lv <;> cases rv <;> simp_all [evalBinary, QValue.isString,
      QValue.isNumber, QValue.isArray]

/-- C5 (witness): adding a bool and nil is a TypeError. -/
theorem c5_plus_operator_semantics_witness :
    evalBinary "+" (.bool true) .nil = .error (TypeError "Cannot add bool and nil") := by
  have h := c5_plus_operator_semantics.2.2.2.2 (.bool true) .nil rfl rfl rfl rfl
  exact h

end Quantum

namespace Quantum

/-- C6: calling an interpreted function runs its body in a fresh scope whose
parent is the function's captured closure environment — the caller's current
environment is not even an input of `callFunction` — with parameters bound
positionally, each missing trailing argument bound to nil and extra arguments
ignored; a Return signal from the body supplies the call's result, and a body
that completes without returning yields nil. -/
theorem c6_call_function_semantics (fuel : Nat) (st : InterpState) (fn : QFunc)
    (args : List QValue) :
    ((getScope (bindParams (allocScope st (some fn.closure)).1
        (allocScope st (some fn.closure)).2 fn.params args)
        (allocScope st (some fn.closure)).2).parent = some fn.closure) ∧
    (fn.params.Nodup → ∀ i (hi : i < fn.params.length),
      mapFind (getScope (bindParams (allocScope st (some fn.closure)).1
          (allocScope st (some fn.closure)).2 fn.params args)
          (allocScope st (some fn.closure)).2).vars (fn.params.get ⟨i, hi⟩) =
        some (args.getD i .nil)) ∧
    (∀ st3 v, execSeq fuel (bindParams (allocScope st (some fn.closure)).1
          (allocScope st (some fn.closure)).2 fn.params args)
        (allocScope st (some fn.closure)).2 fn.body = (st3, some (.ret v)) →
      callFunction (fuel + 1) st fn args = (st3, .ok v)) ∧
    (∀ st3, execSeq fuel (bindParams (allocScope st (some fn.closure)).1
          (allocScope st (some fn.closure)).2 fn.params args)
        (allocScope st (some fn.closure)).2 fn.body = (st3, none) →
      callFunction (fuel + 1) st fn args = (st3, .ok .nil)) := by
  have hr : (allocScope st (some fn.closure)).2 <
      (allocScope st (some fn.closure)).1.scopes.length := by
    unfold allocScope
    simp
  refine ⟨?_, ?_, ?_, ?_⟩
  · rw [bindParams_parent _ _ _ _ hr]
    unfold allocScope getScope
    simp
  · intro hnd i hi
    exact bindParams_lookup _ _ _ _ hr hnd i hi
  · intro st3 v hexec
    simp only [callFunction, hexec]
  · intro st3 hexec
    simp only [callFunction, hexec]

/-- C6 (witness): calling a two-parameter function with one argument binds
the first parameter to the argument and the second to nil in a scope whose
parent is the closure (index 0), and returns the value of the Return
statement. -/
theorem c6_call_function_semantics_witness :
    callFunction 5 ⟨[emptyScope]⟩
        ⟨"f", ["a", "b"], [.returnStmt (some (.identifier "a"))], 0⟩ [.str "v"] =
      (⟨[emptyScope, ⟨[("a", .str "v"), ("b", .nil)], [], some 0⟩]⟩,
        .ok (.str "v")) := by
  exact (c6_call_function_semantics 4 ⟨[emptyScope]⟩
    ⟨"f", ["a", "b"], [.returnStmt (some (.identifier "a"))], 0⟩ [.str "v"]).2.2.1
    ⟨[emptyScope, ⟨[("a", .str "v"), ("b", .nil)], [], some 0⟩]⟩ (.str "v") rfl

/-- C7: a negative integer index i with -n ≤ i < 0 on an array or string of
length n selects element n + i; an integer index outside [-n, n) raises an
IndexError; and indexing a dict returns the value stored under the
stringified key, or nil when the key is absent — never an error. -/
theorem c7_indexing_semantics :
    (∀ (xs : List QValue) (i : ℤ), -(xs.length : ℤ) ≤ i → i < 0 →
      evalIndex (.arr xs) (.num (i : ℚ)) =
        .ok (xs.getD ((xs.length : ℤ) + i).toNat .nil)) ∧
    (∀ (xs : List QValue) (i : ℤ), i < -(xs.length : ℤ) ∨ (xs.length : ℤ) ≤ i →
      evalIndex (.arr xs) (.num (i : ℚ)) =
        .error (IndexError ("Array index " ++
          ToString.toString (if i < 0 then i + (xs.length : ℤ) else i) ++
          " out of range"))) ∧
    (∀ (s : String) (i : ℤ), -(s.data.length : ℤ) ≤ i → i < 0 →
      evalIndex (.str s) (.num (i : ℚ)) =
        .ok (.str (String.mk [s.data.getD ((s.data.length : ℤ) + i).toNat ' ']))) ∧
    (∀ (s : String) (i : ℤ), i < -(s.data.length : ℤ) ∨ (s.data.length : ℤ) ≤ i →
      evalIndex (.str s) (.num (i : ℚ)) =
        .error (IndexError "String index out of range")) ∧
    (∀ (entries : List (String × QValue)) (k : QValue),
      evalIndex (.dict entries) k = .ok ((mapFind entries k.toString).getD .nil)) := by
  refine ⟨?_, ?_, ?_, ?_, ?_⟩
  · intro xs i h1 h2
    unfold evalIndex
    simp only [ratTrunc_intCast, exceptBindOk]
    rw [if_pos h2, if_neg (by omega)]
    rw [show i + (xs.length : ℤ) = (xs.length : ℤ) + i from by omega]
  · intro xs i h
    unfold evalIndex
    simp only [ratTrunc_intCast, exceptBindOk]
    rw [if_pos (show (if i < 0 then i + (xs.length : ℤ) else i) < 0 ∨
        (xs.length : ℤ) ≤ (if i < 0 then i + (xs.length : ℤ) else i) by
      rcases h with h | h <;> split <;> omega)]
  · intro s i h1 h2
    unfold evalIndex
    simp only [toNum, ratTrunc_intCast, exceptBindOk]
    rw [if_pos h2, if_neg (by omega)]
    rw [show i + (s.data.length : ℤ) = (s.data.length : ℤ) + i from by omega]
  · intro s i h
    unfold evalIndex
    simp only [toNum, ratTrunc_intCast, exceptBindOk]
    rw [if_pos (show (if i < 0 then i + (s.data.length : ℤ) else i) < 0 ∨
        (s.data.length : ℤ) ≤ (if i < 0 then i + (s.data.length : ℤ) else i) by
      rcases h with h | h <;> split <;> omega)]
  · intro entries k
    unfold evalIndex
    cases hl : mapFind entries k.toString <;> simp [hl]

/-- C7 (witness): index -1 on a two-element array selects the last element;
index 5 on it is an IndexError; a lookup in an empty dict yields nil. -/
theorem c7_indexing_semantics_witness :
    evalIndex (.arr [.str "a", .str "b"]) (.num (-1)) = .ok (.str "b") ∧
    evalIndex (.arr [.str "a", .str "b"]) (.num 5) =
      .error (IndexError "Array index 5 out of range") ∧
    evalIndex (.dict []) (.str "k") = .ok .nil := by
  refine ⟨?_, ?_, ?_⟩
  · have h := c7_indexing_semantics.1 [.str "a", .str "b"] (-1)
      (by decide) (by decide)
    simpa using h
  · have h := c7_indexing_semantics.2.1 [.str "a", .str "b"] 5
      (Or.inr (by decide))
    simpa using h
  · exact c7_indexing_semantics.2.2.2.2 [] (.str "k")

end Quantum

namespace Quantum

/-- C8: when the lexer meets `//`, it emits the floor-division token exactly
when the last token emitted so far is a number, string, boolean, nil,
identifier, `)`, or `]`; in every other position (including an empty stream)
the two slashes begin a comment — the token stream is left unchanged and the
rest of the line up to the next newline is consumed without producing
tokens. -/
theorem c8_floor_div_vs_comment (toks : List Token) (line col : Nat)
    (rest : List Char) :
    slashCase toks line col ('/' :: rest) =
      if (toks.getLast?.any fun t =>
            t.type = TokenType.NUMBER || t.type = TokenType.STRING ||
            t.type = TokenType.BOOL_TRUE || t.type = TokenType.BOOL_FALSE ||
            t.type = TokenType.NIL || t.type = TokenType.IDENTIFIER ||
            t.type = TokenType.RPAREN || t.type = TokenType.RBRACKET)
      then (toks ++ [⟨.FLOOR_DIV, "//", line, col⟩], rest)
      else (toks, ('/' :: rest).dropWhile fun c => c ≠ '\n') := by
  have hb : prevIsValue toks = toks.getLast?.any (fun t =>
      t.type = TokenType.NUMBER || t.type = TokenType.STRING ||
      t.type = TokenType.BOOL_TRUE || t.type = TokenType.BOOL_FALSE ||
      t.type = TokenType.NIL || t.type = TokenType.IDENTIFIER ||
      t.type = TokenType.RPAREN || t.type = TokenType.RBRACKET) := by
    unfold prevIsValue
    cases toks.getLast? <;> rfl
  have hs : slashCase toks line col ('/' :: rest) =
      if prevIsValue toks then (toks ++ [⟨.FLOOR_DIV, "//", line, col⟩], rest)
      else (toks, skipComment ('/' :: rest)) := rfl
  rw [hs, hb]
  rfl

/-- C9: pushing x and then popping returns x and restores the array to
exactly its original elements (hence its original length); push itself
returns nil. -/
theorem c9_push_pop_inverse (a : List QValue) (x : QValue) :
    (arrayPush a [x]).2 = .nil ∧
    arrayPop (arrayPush a [x]).1 [] = .ok (a, x) := by
  refine ⟨rfl, ?_⟩
  cases a with
  | nil => rfl
  | cons h t =>
      have step : arrayPop (h :: (t ++ [x])) [] =
          .ok ((h :: (t ++ [x])).dropLast, (h :: (t ++ [x])).getLast (by simp)) := rfl
      show arrayPop (h :: (t ++ [x])) [] = .ok (h :: t, x)
      rw [step]
      have hne : t ++ [x] ≠ [] := by simp
      have hl : (h :: (t ++ [x])).getLast (by simp) = x := by
        rw [List.getLast_cons hne]
        exact List.getLast_append_singleton t
      have hd : (h :: (t ++ [x])).dropLast = h :: t := by
        rw [← List.cons_append, List.dropLast_concat]
      rw [hl, hd]

/-- C10: a plain `=` assignment to a bare identifier that is not bound
anywhere in the environment chain silently defines it in the current scope
(no error), while a compound assignment to such a name raises NameError,
because it first reads the old value through `Environment::get`. -/
theorem c10_plain_assign_defines_compound_raises (st : InterpState) (env : Nat)
    (name : String) (val : QValue)
    (h : envHas st.scopes.length st env name = false) :
    setLValueIdent st env name val "=" = .ok (envDefine st env name val false) ∧
    (∀ op, op = "+=" ∨ op = "-=" ∨ op = "*=" ∨ op = "/=" →
      setLValueIdent st env name val op =
        .error (NameError ("Undefined variable: '" ++ name ++ "'"))) := by
  constructor
  · unfold setLValueIdent
    simp [h]
  · intro op hop
    have hne : ¬(op = "=") := by
      rcases hop with h1 | h1 | h1 | h1 <;> subst h1 <;> decide
    unfold setLValueIdent
    rw [if_neg hne, envHas_false_envGet _ _ _ _ h]
    rfl

/-- C10 (witness): in a single empty scope, `x = "v"` defines x, while
`x += "v"` raises NameError. -/
theorem c10_plain_assign_defines_compound_raises_witness :
    setLValueIdent ⟨[emptyScope]⟩ 0 "x" (.str "v") "=" =
      .ok (envDefine ⟨[emptyScope]⟩ 0 "x" (.str "v") false) ∧
    setLValueIdent ⟨[emptyScope]⟩ 0 "x" (.str "v") "+=" =
      .error (NameError "Undefined variable: 'x'") := by
  have h := c10_plain_assign_defines_compound_raises ⟨[emptyScope]⟩ 0 "x"
    (.str "v") rfl
  exact ⟨h.1, h.2 "+=" (Or.inl rfl)⟩

end Quantum
